import Mathlib

/-!
# Verification of the s1tbx-rtc pipeline controller (`src/rtc.py`)

This file is a shallow embedding of the pipeline state machine of the
radiometric-terrain-correction script.  Every external effect the script
performs (invoking an external command, unlinking a file, removing a
directory tree, writing a sidecar XML file) is recorded as a `Step`.
Each Python function of the script is translated into a Lean function
that produces the list of steps it performs; sequencing is list append.

The only way the script's control flow depends on the outside world is
through `exit(return_code)` inside `system_call`: a nonzero exit status
of an external command aborts the whole run.  This is captured by a
single runner, `runSteps`, which walks the step list and stops (with the
offending status) at the first external command whose simulated exit
status — supplied by an `oracle : Nat → Nat`, indexed by invocation
count — is nonzero.  The trace of a run is the list of steps actually
performed; on success it is the whole step list.

Results of the other external inputs (the result of `os.listdir` on the
two terrain-corrected data directories, the filename of the downloaded
granule, and the command-line arguments) are supplied by an `Env`.
-/

/-- Python `s[a:b]` for nonnegative indices (clamping is implicit in
`List.drop`/`List.take` and truncated subtraction). -/
def pySlice (s : String) (a b : Nat) : String :=
  String.mk ((s.toList.drop a).take (b - a))

/-- Python `s.endswith(suffix)`. -/
def strEndsWith (s suffix : String) : Bool :=
  suffix.toList.isSuffixOf s.toList

/-- Python `s.replace(".dim", ".data")`: replaces every non-overlapping
occurrence of `".dim"` by `".data"`, scanning left to right. -/
def dimToData : List Char → List Char
  | '.' :: 'd' :: 'i' :: 'm' :: rest => '.' :: 'd' :: 'a' :: 't' :: 'a' :: dimToData rest
  | c :: rest => c :: dimToData rest
  | [] => []

/-- Python `input_file.replace(".dim", ".data")` as used by the script. -/
def pyReplaceDim (s : String) : String :=
  String.mk (dimToData s.toList)

/-- Python `file_name[-6:-4]` — the band / polarization code taken from a
band filename (the two characters right before the `".img"` extension). -/
def bandCode (file_name : String) : String :=
  pySlice file_name (file_name.length - 6) (file_name.length - 4)

/-- One observable side effect of the script. -/
inductive Step where
  /-- `subprocess.call(cmd)` of an external command. -/
  | call (cmd : List String)
  /-- `os.unlink(path)`. -/
  | unlink (path : String)
  /-- `shutil.rmtree(path)`. -/
  | rmtree (path : String)
  /-- `create_arcgis_xml` writing the rendered sidecar: the target path and
  the two data fields the claims are about (the `polarization` and
  `acquisition_year` values substituted into the template). -/
  | xmlWrite (path : String) (polarization : String) (acquisitionYear : String)
  deriving DecidableEq, Repr

/-- `system_call(params)`: one external command invocation.  The abort on a
nonzero return code (`exit(return_code)`) is realised by the runner. -/
def system_call (params : List String) : List Step :=
  [Step.call params]

/-- `cleanup(input_file)`: unlink the file, and when it is a `.dim`
descriptor also remove the companion `.data` directory tree. -/
def cleanup (input_file : String) : List Step :=
  Step.unlink input_file ::
    (if strEndsWith input_file ".dim" then [Step.rmtree (pyReplaceDim input_file)] else [])

/-- `gpt(input_file, cleanup_flag, command, *args)`: run one toolbox stage
and, when asked, delete the consumed input artifact; returns the steps
performed together with the produced artifact's primary file name
`f"{command}.dim"`. -/
def gpt (input_file : String) (cleanup_flag : Bool) (command : String)
    (args : List String) : List Step × String :=
  (system_call (["gpt", command, "-Ssource=" ++ input_file, "-t", command] ++ args) ++
    (if cleanup_flag then cleanup input_file else []),
   command ++ ".dim")

/-- `create_geotiff_from_img(input_file, output_file)`: translate to
GeoTIFF, build overviews, re-translate tiled/compressed, then delete the
temporary file. -/
def create_geotiff_from_img (input_file output_file : String) : List Step :=
  system_call ["gdal_translate", "-of", "GTiff", "-a_nodata", "0", input_file, "temp.tif"] ++
  system_call ["gdaladdo", "-r", "average", "temp.tif", "2", "4", "8", "16"] ++
  system_call ["gdal_translate", "-co", "TILED=YES", "-co", "COMPRESS=DEFLATE",
    "-co", "COPY_SRC_OVERVIEWS=YES", "temp.tif", output_file] ++
  cleanup "temp.tif"

/-- `create_arcgis_xml(input_granule, output_file, polarization)`: the
rendered template's claim-relevant substitution values are the
polarization and `input_granule[17:21]`. -/
def create_arcgis_xml (input_granule output_file polarization : String) : List Step :=
  [Step.xmlWrite output_file polarization (pySlice input_granule 17 21)]

/-- The body of the `for file_name in os.listdir(data_dir)` loop of
`process_img_files`, over the listing supplied by the environment. -/
def imgLoop (granule data_dir extension : String) (create_xml : Bool) :
    List String → List Step
  | [] => []
  | file_name :: rest =>
    (if strEndsWith file_name ".img" then
      create_geotiff_from_img (data_dir ++ "/" ++ file_name)
          ("/output/" ++ granule ++ "_" ++ bandCode file_name ++ "_" ++ extension) ++
        (if create_xml then
          create_arcgis_xml granule
            (("/output/" ++ granule ++ "_" ++ bandCode file_name ++ "_" ++ extension) ++ ".xml")
            (bandCode file_name)
         else [])
     else []) ++ imgLoop granule data_dir extension create_xml rest

/-- `process_img_files(local_file, extension, create_xml)`: export every
`.img` band of the artifact's data directory, then delete the artifact.
`os.listdir(data_dir)` is an external effect; its result (`dirListing`)
is supplied by the run environment at each call site. -/
def process_img_files (granule : String) (dirListing : List String)
    (local_file extension : String) (create_xml : Bool) : List Step :=
  imgLoop granule (pyReplaceDim local_file) extension create_xml dirListing ++
    cleanup local_file

/-- Truthiness of `args.layover` in `if args.layover:`.  The `--layover`
flag is declared with `type=bool`, so argparse stores `None` when the flag
is omitted and `bool(value)` (that is, `value != ""`) when it is given. -/
def layoverValue : Option String → Bool
  | none => false
  | some s => s != ""

/-- The external inputs of one pipeline run. -/
structure Env where
  /-- `args.granule`. -/
  granule : String
  /-- The raw `--layover` argument (`none` when the flag is omitted). -/
  layover : Option String
  /-- The local filename of the downloaded granule (`download_file`'s
  return value: the last `/`-separated segment of the download URL). -/
  downloadName : String
  /-- `os.listdir("Terrain-Correction.data")` at the layover branch's
  `process_img_files` call. -/
  lsListing : List String
  /-- `os.listdir("Terrain-Correction.data")` at the main path's
  `process_img_files` call. -/
  rtcListing : List String

/-- The step list of the `__main__` pipeline, from the first `gpt` call on
the downloaded granule through the final `process_img_files`. -/
def pipelineSteps (env : Env) : List Step :=
  let (s1, f1) := gpt env.downloadName true "Apply-Orbit-File" []
  let (s2, f2) := gpt f1 true "Calibration" ["-PoutputBetaBand=true", "-PoutputSigmaBand=false"]
  let (s3, f3) := gpt f2 true "Speckle-Filter" []
  let (s4, f4) := gpt f3 true "Multilook" ["-PnRgLooks=3", "-PnAzLooks=3"]
  let (s5, terrain_flattening_file) := gpt f4 true "Terrain-Flattening" ["-PreGridMethod=False"]
  let branch :=
    if layoverValue env.layover then
      let (b1, g1) := gpt terrain_flattening_file false "SAR-Simulation"
        ["-PdemName=SRTM 1Sec HGT", "-PsaveLayoverShadowMask=true"]
      let (b2, g2) := gpt g1 true "Terrain-Correction"
        ["-PimgResamplingMethod=NEAREST_NEIGHBOUR", "-PpixelSpacingInMeter=30.0",
         "-PsourceBands=layover_shadow_mask", "-PdemName=SRTM 1Sec HGT"]
      b1 ++ b2 ++ process_img_files env.granule env.lsListing g2 "LS.tif" false
    else []
  let (s6, f6) := gpt terrain_flattening_file true "Terrain-Correction"
    ["-PpixelSpacingInMeter=30.0", "-PdemName=SRTM 1Sec HGT"]
  s1 ++ s2 ++ s3 ++ s4 ++ s5 ++ branch ++ s6 ++
    process_img_files env.granule env.rtcListing f6 "RTC.tif" true

/-- How a run ends: all steps performed, or aborted by `exit(code)` from
`system_call` with the failing command's nonzero exit status. -/
inductive Outcome where
  | success
  | fatal (code : Nat)
  deriving DecidableEq, Repr

/-- Execute a step list.  `oracle k` is the exit status of the `k`-th
external command invocation (counting from `k₀` at entry); a nonzero
status aborts the run right after the failing call, exactly as
`exit(return_code)` does.  Returns the performed steps, the next
invocation index, and the outcome. -/
def runSteps (oracle : Nat → Nat) : List Step → Nat → List Step × Nat × Outcome
  | [], k => ([], k, Outcome.success)
  | Step.call c :: rest, k =>
    if oracle k = 0 then
      let r := runSteps oracle rest (k + 1)
      (Step.call c :: r.1, r.2.1, r.2.2)
    else
      ([Step.call c], k + 1, Outcome.fatal (oracle k))
  | Step.unlink f :: rest, k =>
    let r := runSteps oracle rest k
    (Step.unlink f :: r.1, r.2.1, r.2.2)
  | Step.rmtree d :: rest, k =>
    let r := runSteps oracle rest k
    (Step.rmtree d :: r.1, r.2.1, r.2.2)
  | Step.xmlWrite p pol y :: rest, k =>
    let r := runSteps oracle rest k
    (Step.xmlWrite p pol y :: r.1, r.2.1, r.2.2)

/-- One whole pipeline run. -/
def runPipeline (env : Env) (oracle : Nat → Nat) : List Step × Nat × Outcome :=
  runSteps oracle (pipelineSteps env) 0

/-- The steps actually performed by a run. -/
def runTrace (env : Env) (oracle : Nat → Nat) : List Step :=
  (runPipeline env oracle).1

/-- How the run ended. -/
def runOutcome (env : Env) (oracle : Nat → Nat) : Outcome :=
  (runPipeline env oracle).2.2

example : pyReplaceDim "Apply-Orbit-File.dim" = "Apply-Orbit-File.data" := by decide
example : bandCode "Gamma0_VV.img" = "VV" := by decide
example : bandCode "a.img" = "a" := by decide
example : pySlice "S1A_IW_GRDH_1SDV_20161205T044514" 17 21 = "2016" := by decide
example : cleanup "temp.tif" = [Step.unlink "temp.tif"] := by decide
example : layoverValue (some "False") = true := by decide

theorem runSteps_front (oracle : Nat → Nat) (l : List Step) (k : Nat) :
    (runSteps oracle l k).1 <+: l := by
  induction l generalizing k with
  | nil => exact List.nil_prefix
  | cons s rest ih =>
    have cons_mono : ∀ (a : Step) (l₁ l₂ : List Step), l₁ <+: l₂ → a :: l₁ <+: a :: l₂ := by
      rintro a l₁ l₂ ⟨t, rfl⟩
      exact ⟨t, rfl⟩
    cases s with
    | call c =>
      by_cases h : oracle k = 0
      · simp only [runSteps, if_pos h]
        exact cons_mono _ _ _ (ih (k + 1))
      · simp only [runSteps, if_neg h]
        exact ⟨rest, rfl⟩
    | unlink f => simpa only [runSteps] using cons_mono _ _ _ (ih k)
    | rmtree d => simpa only [runSteps] using cons_mono _ _ _ (ih k)
    | xmlWrite p pol y => simpa only [runSteps] using cons_mono _ _ _ (ih k)

theorem runSteps_success (oracle : Nat → Nat) (l : List Step) (k : Nat)
    (h : (runSteps oracle l k).2.2 = Outcome.success) :
    (runSteps oracle l k).1 = l := by
  induction l generalizing k with
  | nil => rfl
  | cons s rest ih =>
    cases s with
    | call c =>
      by_cases hc : oracle k = 0
      · simp only [runSteps, if_pos hc] at h ⊢
        rw [ih (k + 1) h]
      · simp only [runSteps, if_neg hc] at h
        exact absurd h (by simp)
    | unlink f =>
      simp only [runSteps] at h ⊢
      rw [ih k h]
    | rmtree d =>
      simp only [runSteps] at h ⊢
      rw [ih k h]
    | xmlWrite p pol y =>
      simp only [runSteps] at h ⊢
      rw [ih k h]

theorem runSteps_fatal (oracle : Nat → Nat) (l : List Step) (k : Nat) (N : Nat)
    (h : (runSteps oracle l k).2.2 = Outcome.fatal N) :
    N ≠ 0 ∧ (∃ c, (runSteps oracle l k).1.getLast? = some (Step.call c)) ∧
      oracle ((runSteps oracle l k).2.1 - 1) = N ∧ k < (runSteps oracle l k).2.1 := by
  have last_cons : ∀ (a : Step) (t : List Step) (x : Step),
      t.getLast? = some x → (a :: t).getLast? = some x := by
    intro a t x hx
    cases t with
    | nil => simp at hx
    | cons b t' => rw [List.getLast?_cons_cons]; exact hx
  induction l generalizing k with
  | nil => simp [runSteps] at h
  | cons s rest ih =>
    cases s with
    | call c =>
      by_cases hc : oracle k = 0
      · simp only [runSteps, if_pos hc] at h ⊢
        obtain ⟨hN, ⟨c', hc'⟩, ho, hk⟩ := ih (k + 1) h
        exact ⟨hN, ⟨c', last_cons _ _ _ hc'⟩, ho, by omega⟩
      · simp only [runSteps, if_neg hc] at h ⊢
        have hN : oracle k = N := by
          cases h
          rfl
        refine ⟨by omega, ⟨c, by simp⟩, ?_, by omega⟩
        simpa using hN
    | unlink f =>
      simp only [runSteps] at h ⊢
      obtain ⟨hN, ⟨c', hc'⟩, ho, hk⟩ := ih k h
      exact ⟨hN, ⟨c', last_cons _ _ _ hc'⟩, ho, hk⟩
    | rmtree d =>
      simp only [runSteps] at h ⊢
      obtain ⟨hN, ⟨c', hc'⟩, ho, hk⟩ := ih k h
      exact ⟨hN, ⟨c', last_cons _ _ _ hc'⟩, ho, hk⟩
    | xmlWrite p pol y =>
      simp only [runSteps] at h ⊢
      obtain ⟨hN, ⟨c', hc'⟩, ho, hk⟩ := ih k h
      exact ⟨hN, ⟨c', last_cons _ _ _ hc'⟩, ho, hk⟩

theorem run_success_trace (env : Env) (oracle : Nat → Nat)
    (h : runOutcome env oracle = Outcome.success) :
    runTrace env oracle = pipelineSteps env :=
  runSteps_success oracle (pipelineSteps env) 0 h

theorem runTrace_front (env : Env) (oracle : Nat → Nat) :
    runTrace env oracle <+: pipelineSteps env :=
  runSteps_front oracle (pipelineSteps env) 0

/-- The `SAR-Simulation` stage invocation (layover branch). -/
def sarSimulationCall : Step :=
  Step.call ["gpt", "SAR-Simulation", "-Ssource=Terrain-Flattening.dim", "-t", "SAR-Simulation",
    "-PdemName=SRTM 1Sec HGT", "-PsaveLayoverShadowMask=true"]

/-- The main-path `Terrain-Correction` stage invocation. -/
def mainTerrainCorrectionCall : Step :=
  Step.call ["gpt", "Terrain-Correction", "-Ssource=Terrain-Flattening.dim", "-t",
    "Terrain-Correction", "-PpixelSpacingInMeter=30.0", "-PdemName=SRTM 1Sec HGT"]

/-- The steps of the fixed chain up to and including the `Terrain-Flattening`
stage and its cleanup of the `Multilook` artifact. -/
def chainPrefixSteps (env : Env) : List Step :=
  Step.call ["gpt", "Apply-Orbit-File", "-Ssource=" ++ env.downloadName, "-t",
      "Apply-Orbit-File"] ::
    (cleanup env.downloadName ++
      [Step.call ["gpt", "Calibration", "-Ssource=Apply-Orbit-File.dim", "-t", "Calibration",
         "-PoutputBetaBand=true", "-PoutputSigmaBand=false"],
       Step.unlink "Apply-Orbit-File.dim", Step.rmtree "Apply-Orbit-File.data",
       Step.call ["gpt", "Speckle-Filter", "-Ssource=Calibration.dim", "-t", "Speckle-Filter"],
       Step.unlink "Calibration.dim", Step.rmtree "Calibration.data",
       Step.call ["gpt", "Multilook", "-Ssource=Speckle-Filter.dim", "-t", "Multilook",
         "-PnRgLooks=3", "-PnAzLooks=3"],
       Step.unlink "Speckle-Filter.dim", Step.rmtree "Speckle-Filter.data",
       Step.call ["gpt", "Terrain-Flattening", "-Ssource=Multilook.dim", "-t",
         "Terrain-Flattening", "-PreGridMethod=False"],
       Step.unlink "Multilook.dim", Step.rmtree "Multilook.data"])

/-- The steps of the optional layover branch. -/
def branchSteps (env : Env) : List Step :=
  sarSimulationCall ::
    Step.call ["gpt", "Terrain-Correction", "-Ssource=SAR-Simulation.dim", "-t",
      "Terrain-Correction", "-PimgResamplingMethod=NEAREST_NEIGHBOUR",
      "-PpixelSpacingInMeter=30.0", "-PsourceBands=layover_shadow_mask",
      "-PdemName=SRTM 1Sec HGT"] ::
    Step.unlink "SAR-Simulation.dim" :: Step.rmtree "SAR-Simulation.data" ::
    process_img_files env.granule env.lsListing "Terrain-Correction.dim" "LS.tif" false

/-- The final export of the main RTC product. -/
def mainExportSteps (env : Env) : List Step :=
  process_img_files env.granule env.rtcListing "Terrain-Correction.dim" "RTC.tif" true

theorem pipelineSteps_eq (env : Env) :
    pipelineSteps env =
      chainPrefixSteps env ++
        ((if layoverValue env.layover then branchSteps env else []) ++
          (mainTerrainCorrectionCall :: Step.unlink "Terrain-Flattening.dim" ::
            Step.rmtree "Terrain-Flattening.data" :: mainExportSteps env)) := by
  have c1 : cleanup "Apply-Orbit-File.dim" =
      [Step.unlink "Apply-Orbit-File.dim", Step.rmtree "Apply-Orbit-File.data"] := by decide
  have c2 : cleanup "Calibration.dim" =
      [Step.unlink "Calibration.dim", Step.rmtree "Calibration.data"] := by decide
  have c3 : cleanup "Speckle-Filter.dim" =
      [Step.unlink "Speckle-Filter.dim", Step.rmtree "Speckle-Filter.data"] := by decide
  have c4 : cleanup "Multilook.dim" =
      [Step.unlink "Multilook.dim", Step.rmtree "Multilook.data"] := by decide
  have c5 : cleanup "Terrain-Flattening.dim" =
      [Step.unlink "Terrain-Flattening.dim", Step.rmtree "Terrain-Flattening.data"] := by decide
  have c6 : cleanup "SAR-Simulation.dim" =
      [Step.unlink "SAR-Simulation.dim", Step.rmtree "SAR-Simulation.data"] := by decide
  cases h : layoverValue env.layover <;>
    simp [pipelineSteps, chainPrefixSteps, branchSteps, mainExportSteps, gpt, system_call,
      h, mainTerrainCorrectionCall, sarSimulationCall, c1, c2, c3, c4, c5, c6]

/-- A concrete scene identifier for witness runs. -/
def demoGranule : String :=
  "S1A_IW_GRDH_1SDV_20161205T044514_20161205T044539_014211_016F83_5CC7"

/-- A concrete run environment with the layover branch requested. -/
def demoEnv : Env where
  granule := demoGranule
  layover := some "True"
  downloadName := "granule.zip"
  lsListing := ["layover_shadow_mask_VV.img"]
  rtcListing := ["Gamma0_VV.img", "Gamma0_VH.img", "readme.txt"]

/-- The same environment without the layover flag. -/
def demoEnvNoLayover : Env :=
  { demoEnv with layover := none }

/-- All external commands succeed. -/
def zeroOracle : Nat → Nat := fun _ => 0

example : runOutcome demoEnv zeroOracle = Outcome.success := by decide
example : runOutcome demoEnvNoLayover zeroOracle = Outcome.success := by decide

/-- **C1**: in every successful run the pipeline invokes the toolbox stages
in exactly the fixed order Apply-Orbit-File, Calibration (beta band
enabled, sigma band disabled), Speckle-Filter, Multilook (3×3 looks),
Terrain-Flattening (re-grid method disabled); each stage's `-Ssource`
input is the previous stage's output `<stageName>.dim`, and the previous
artifact is deleted right after each of these stages completes. -/
theorem chain_fixed_order_and_cleanup (env : Env) (oracle : Nat → Nat)
    (h : runOutcome env oracle = Outcome.success) :
    ∃ rest, runTrace env oracle =
      Step.call ["gpt", "Apply-Orbit-File", "-Ssource=" ++ env.downloadName, "-t",
          "Apply-Orbit-File"] ::
        (cleanup env.downloadName ++
          (Step.call ["gpt", "Calibration", "-Ssource=Apply-Orbit-File.dim", "-t", "Calibration",
              "-PoutputBetaBand=true", "-PoutputSigmaBand=false"] ::
           Step.unlink "Apply-Orbit-File.dim" :: Step.rmtree "Apply-Orbit-File.data" ::
           Step.call ["gpt", "Speckle-Filter", "-Ssource=Calibration.dim", "-t",
              "Speckle-Filter"] ::
           Step.unlink "Calibration.dim" :: Step.rmtree "Calibration.data" ::
           Step.call ["gpt", "Multilook", "-Ssource=Speckle-Filter.dim", "-t", "Multilook",
              "-PnRgLooks=3", "-PnAzLooks=3"] ::
           Step.unlink "Speckle-Filter.dim" :: Step.rmtree "Speckle-Filter.data" ::
           Step.call ["gpt", "Terrain-Flattening", "-Ssource=Multilook.dim", "-t",
              "Terrain-Flattening", "-PreGridMethod=False"] ::
           Step.unlink "Multilook.dim" :: Step.rmtree "Multilook.data" :: rest)) := by
  refine ⟨(if layoverValue env.layover then branchSteps env else []) ++
    (mainTerrainCorrectionCall :: Step.unlink "Terrain-Flattening.dim" ::
      Step.rmtree "Terrain-Flattening.data" :: mainExportSteps env), ?_⟩
  rw [run_success_trace env oracle h, pipelineSteps_eq]
  simp [chainPrefixSteps]

/-- Witness for C1 at a concrete successful run. -/
theorem chain_fixed_order_and_cleanup_witness :
    runOutcome demoEnv zeroOracle = Outcome.success ∧
      ∃ rest, runTrace demoEnv zeroOracle = chainPrefixSteps demoEnv ++ rest :=
  ⟨by decide, chain_fixed_order_and_cleanup demoEnv zeroOracle (by decide)⟩

/-- **C3**: if any external command exits with a nonzero status `N`, the run
terminates with exit status `N`; the failing invocation is the last step
of the trace, so no subsequent external command is invoked and no cleanup
step follows the failing command. -/
theorem fatal_error_propagation (env : Env) (oracle : Nat → Nat) (N : Nat)
    (h : runOutcome env oracle = Outcome.fatal N) :
    N ≠ 0 ∧ (∃ c, (runTrace env oracle).getLast? = some (Step.call c)) ∧
      oracle ((runPipeline env oracle).2.1 - 1) = N := by
  obtain ⟨hN, hc, ho, _⟩ := runSteps_fatal oracle (pipelineSteps env) 0 N h
  exact ⟨hN, hc, ho⟩

/-- The third external command (the `Speckle-Filter` stage) exits with
status 7; every other command succeeds. -/
def fatalOracle : Nat → Nat := fun k => if k = 2 then 7 else 0

/-- Witness for C3 at a concrete failing run. -/
theorem fatal_error_propagation_witness :
    runOutcome demoEnv fatalOracle = Outcome.fatal 7 ∧
      (7 ≠ 0 ∧ (∃ c, (runTrace demoEnv fatalOracle).getLast? = some (Step.call c)) ∧
        fatalOracle ((runPipeline demoEnv fatalOracle).2.1 - 1) = 7) :=
  ⟨by decide, fatal_error_propagation demoEnv fatalOracle 7 (by decide)⟩

/-- The stage name of a toolbox (`gpt`) invocation step, if any. -/
def stageName? : Step → Option String
  | Step.call c => if c.head? = some "gpt" then c.drop 1 |>.head? else none
  | _ => none

/-- The toolbox stages invoked by a step list, in order. -/
def stageCalls (t : List Step) : List String :=
  t.filterMap stageName?

/-- Recognises the final `gdal_translate` of a band export: the invocation
that writes the output product (it carries `COPY_SRC_OVERVIEWS=YES`). -/
def isFinalTranslate (c : List String) : Bool :=
  c.head? == some "gdal_translate" && c.contains "COPY_SRC_OVERVIEWS=YES"

/-- The output paths written by the band exports of a step list, in order. -/
def exportTargets (t : List Step) : List String :=
  t.filterMap fun s =>
    match s with
    | Step.call c => if isFinalTranslate c then c.getLast? else none
    | _ => none

theorem append_ne_of_longer (a s b : String) (h : b.length < a.length) : ¬a ++ s = b := by
  intro he
  have hl := congrArg String.length he
  rw [String.length_append] at hl
  omega

theorem tc_data_ne_copy (fn : String) :
    ¬"Terrain-Correction.data/" ++ fn = "COPY_SRC_OVERVIEWS=YES" :=
  append_ne_of_longer "Terrain-Correction.data/" fn _ (by decide)

theorem cleanup_temp : cleanup "temp.tif" = [Step.unlink "temp.tif"] := by decide

theorem imgLoop_unlink_eq (g dd ext : String) (cx : Bool) (listing : List String) (f : String) :
    Step.unlink f ∈ imgLoop g dd ext cx listing → f = "temp.tif" := by
  induction listing with
  | nil => simp [imgLoop]
  | cons fn rest ih =>
    intro h
    simp only [imgLoop, List.mem_append] at h
    rcases h with h | h
    · by_cases hi : strEndsWith fn ".img" = true
      · rw [if_pos hi] at h
        cases cx <;>
          simpa [create_geotiff_from_img, system_call, cleanup_temp, create_arcgis_xml] using h
      · rw [if_neg hi] at h
        simp at h
    · exact ih h

theorem imgLoop_no_rmtree (g dd ext : String) (cx : Bool) (listing : List String) (d : String) :
    Step.rmtree d ∉ imgLoop g dd ext cx listing := by
  induction listing with
  | nil => simp [imgLoop]
  | cons fn rest ih =>
    intro h
    simp only [imgLoop, List.mem_append] at h
    rcases h with h | h
    · by_cases hi : strEndsWith fn ".img" = true
      · rw [if_pos hi] at h
        cases cx <;>
          simp [create_geotiff_from_img, system_call, cleanup_temp, create_arcgis_xml] at h
      · rw [if_neg hi] at h
        simp at h
    · exact ih h

theorem imgLoop_call_head (g dd ext : String) (cx : Bool) (listing : List String)
    (c : List String) :
    Step.call c ∈ imgLoop g dd ext cx listing →
      c.head? = some "gdal_translate" ∨ c.head? = some "gdaladdo" := by
  induction listing with
  | nil => simp [imgLoop]
  | cons fn rest ih =>
    intro h
    simp only [imgLoop, List.mem_append] at h
    rcases h with h | h
    · by_cases hi : strEndsWith fn ".img" = true
      · rw [if_pos hi] at h
        cases cx <;>
          · simp [create_geotiff_from_img, system_call, cleanup_temp, create_arcgis_xml] at h
            rcases h with h | h | h <;> simp [h]
      · rw [if_neg hi] at h
        simp at h
    · exact ih h

theorem stageCalls_imgLoop (g dd ext : String) (cx : Bool) (listing : List String) :
    stageCalls (imgLoop g dd ext cx listing) = [] := by
  rw [stageCalls, List.filterMap_eq_nil_iff]
  intro s hs
  cases s with
  | call c =>
    rcases imgLoop_call_head g dd ext cx listing c hs with h | h <;>
      simp [stageName?, h]
  | unlink f => rfl
  | rmtree d => rfl
  | xmlWrite p pol y => rfl

theorem imgLoop_xmlWrite (g dd ext : String) (cx : Bool) (listing : List String)
    (p pol y : String) :
    Step.xmlWrite p pol y ∈ imgLoop g dd ext cx listing →
      cx = true ∧ ∃ fn ∈ listing, strEndsWith fn ".img" = true ∧ pol = bandCode fn ∧
        p = ("/output/" ++ g ++ "_" ++ bandCode fn ++ "_" ++ ext) ++ ".xml" ∧
        y = pySlice g 17 21 := by
  induction listing with
  | nil => simp [imgLoop]
  | cons fn rest ih =>
    intro h
    simp only [imgLoop, List.mem_append] at h
    rcases h with h | h
    · by_cases hi : strEndsWith fn ".img" = true
      · rw [if_pos hi] at h
        cases cx with
        | false =>
          simp [create_geotiff_from_img, system_call, cleanup_temp, create_arcgis_xml] at h
        | true =>
          simp [create_geotiff_from_img, system_call, cleanup_temp, create_arcgis_xml] at h
          obtain ⟨hp, hpol, hy⟩ := h
          exact ⟨rfl, fn, List.mem_cons_self fn rest, hi, hpol, hp, hy⟩
      · rw [if_neg hi] at h
        simp at h
    · obtain ⟨hcx, fn', hfn', hrest⟩ := ih h
      exact ⟨hcx, fn', List.mem_cons_of_mem fn hfn', hrest⟩

theorem exportTargets_append (a b : List Step) :
    exportTargets (a ++ b) = exportTargets a ++ exportTargets b :=
  List.filterMap_append a b _

theorem stageCalls_append (a b : List Step) :
    stageCalls (a ++ b) = stageCalls a ++ stageCalls b :=
  List.filterMap_append a b _

theorem filterMap_prefix_mono {α β : Type} (f : α → Option β) {l₁ l₂ : List α}
    (h : l₁ <+: l₂) : l₁.filterMap f <+: l₂.filterMap f := by
  obtain ⟨t, rfl⟩ := h
  exact ⟨t.filterMap f, (List.filterMap_append _ _ _).symm⟩

theorem exportTargets_imgLoop (g ext : String) (cx : Bool) (listing : List String) :
    exportTargets (imgLoop g "Terrain-Correction.data" ext cx listing) =
      (listing.filter fun fn => strEndsWith fn ".img").map
        (fun fn => "/output/" ++ g ++ "_" ++ bandCode fn ++ "_" ++ ext) := by
  induction listing with
  | nil => rfl
  | cons fn rest ih =>
    have hne : ¬"COPY_SRC_OVERVIEWS=YES" = "Terrain-Correction.data/" ++ fn :=
      fun he => tc_data_ne_copy fn he.symm
    by_cases hi : strEndsWith fn ".img" = true
    · simp only [imgLoop]
      rw [if_pos hi, exportTargets_append, ih]
      have hfic : List.filter (fun fn => strEndsWith fn ".img") (fn :: rest) =
          fn :: List.filter (fun fn => strEndsWith fn ".img") rest := by
        simp [List.filter_cons, hi]
      rw [hfic, List.map_cons]
      cases cx <;>
        simp [exportTargets, create_geotiff_from_img, system_call, cleanup_temp,
          create_arcgis_xml, isFinalTranslate, List.contains_eq_any_beq, hne]
    · simp only [imgLoop]
      rw [if_neg hi, exportTargets_append, ih]
      have hfic : List.filter (fun fn => strEndsWith fn ".img") (fn :: rest) =
          List.filter (fun fn => strEndsWith fn ".img") rest := by
        simp [List.filter_cons, hi]
      rw [hfic]
      rfl

theorem exportTargets_nil : exportTargets [] = [] := rfl

theorem isFinalTranslate_gpt (rest : List String) :
    isFinalTranslate ("gpt" :: rest) = false := rfl

theorem exportTargets_cons_call (c : List String) (t : List Step)
    (h : isFinalTranslate c = false) :
    exportTargets (Step.call c :: t) = exportTargets t := by
  simp [exportTargets, h]

theorem exportTargets_cons_unlink (f : String) (t : List Step) :
    exportTargets (Step.unlink f :: t) = exportTargets t := rfl

theorem exportTargets_cons_rmtree (d : String) (t : List Step) :
    exportTargets (Step.rmtree d :: t) = exportTargets t := rfl

theorem exportTargets_cons_xml (p pol y : String) (t : List Step) :
    exportTargets (Step.xmlWrite p pol y :: t) = exportTargets t := rfl

theorem exportTargets_cleanup (f : String) : exportTargets (cleanup f) = [] := by
  rw [cleanup]
  by_cases h : strEndsWith f ".dim" = true
  · rw [if_pos h]; rfl
  · rw [if_neg h]; rfl

theorem stageCalls_nil : stageCalls [] = [] := rfl

theorem stageCalls_cons_gpt (name : String) (rest : List String) (t : List Step) :
    stageCalls (Step.call ("gpt" :: name :: rest) :: t) = name :: stageCalls t := rfl

theorem stageCalls_cons_call_not (c : List String) (t : List Step)
    (h : ¬c.head? = some "gpt") :
    stageCalls (Step.call c :: t) = stageCalls t := by
  simp [stageCalls, stageName?, h]

theorem stageCalls_cons_unlink (f : String) (t : List Step) :
    stageCalls (Step.unlink f :: t) = stageCalls t := rfl

theorem stageCalls_cons_rmtree (d : String) (t : List Step) :
    stageCalls (Step.rmtree d :: t) = stageCalls t := rfl

theorem stageCalls_cons_xml (p pol y : String) (t : List Step) :
    stageCalls (Step.xmlWrite p pol y :: t) = stageCalls t := rfl

theorem stageCalls_cleanup (f : String) : stageCalls (cleanup f) = [] := by
  rw [cleanup]
  by_cases h : strEndsWith f ".dim" = true
  · rw [if_pos h]; rfl
  · rw [if_neg h]; rfl

theorem pyReplaceDim_tc : pyReplaceDim "Terrain-Correction.dim" = "Terrain-Correction.data" := by
  decide

theorem stageCalls_pipeline (env : Env) :
    stageCalls (pipelineSteps env) =
      ["Apply-Orbit-File", "Calibration", "Speckle-Filter", "Multilook", "Terrain-Flattening"] ++
        (if layoverValue env.layover then ["SAR-Simulation", "Terrain-Correction"] else []) ++
        ["Terrain-Correction"] := by
  rw [pipelineSteps_eq]
  cases h : layoverValue env.layover <;>
    simp [chainPrefixSteps, branchSteps, mainExportSteps, process_img_files, pyReplaceDim_tc, h,
      sarSimulationCall, mainTerrainCorrectionCall, stageCalls_append, stageCalls_cleanup,
      stageCalls_imgLoop, stageCalls_cons_gpt, stageCalls_cons_unlink, stageCalls_cons_rmtree,
      stageCalls_cons_xml, stageCalls_nil]

theorem exportTargets_pipeline (env : Env) :
    exportTargets (pipelineSteps env) =
      (if layoverValue env.layover then
        (env.lsListing.filter fun fn => strEndsWith fn ".img").map
          (fun fn => "/output/" ++ env.granule ++ "_" ++ bandCode fn ++ "_" ++ "LS.tif")
       else []) ++
        (env.rtcListing.filter fun fn => strEndsWith fn ".img").map
          (fun fn => "/output/" ++ env.granule ++ "_" ++ bandCode fn ++ "_" ++ "RTC.tif") := by
  rw [pipelineSteps_eq]
  cases h : layoverValue env.layover <;>
    simp [chainPrefixSteps, branchSteps, mainExportSteps, process_img_files, pyReplaceDim_tc, h,
      sarSimulationCall, mainTerrainCorrectionCall, exportTargets_append, exportTargets_cleanup,
      exportTargets_imgLoop, exportTargets_cons_call, exportTargets_cons_unlink,
      exportTargets_cons_rmtree, exportTargets_cons_xml, exportTargets_nil, isFinalTranslate_gpt]

theorem strEndsWith_rtc_ls (q : String) :
    strEndsWith (q ++ "RTC.tif") "LS.tif" = false := by
  by_contra hb
  rw [Bool.not_eq_false, strEndsWith, List.isSuffixOf_iff_suffix] at hb
  rw [← List.reverse_prefix] at hb
  have hd : (q ++ "RTC.tif").toList = q.toList ++ "RTC.tif".toList := String.data_append q _
  rw [hd, List.reverse_append] at hb
  have ht := List.prefix_iff_eq_take.mp hb
  rw [List.take_append_of_le_length (by decide)] at ht
  exact absurd ht (by decide)

/-- **C5**: when the layover flag is unset, the `SAR-Simulation` stage is
never invoked and no export writes an output whose name has the `LS.tif`
suffix. -/
theorem no_sar_sim_without_flag (env : Env) (oracle : Nat → Nat)
    (h : layoverValue env.layover = false) :
    "SAR-Simulation" ∉ stageCalls (runTrace env oracle) ∧
      ∀ p ∈ exportTargets (runTrace env oracle), strEndsWith p "LS.tif" = false := by
  constructor
  · intro hmem
    have hsub : stageCalls (runTrace env oracle) <+: stageCalls (pipelineSteps env) :=
      filterMap_prefix_mono _ (runTrace_front env oracle)
    have hm := hsub.subset hmem
    rw [stageCalls_pipeline, h] at hm
    simp at hm
  · intro p hp
    have hsub : exportTargets (runTrace env oracle) <+: exportTargets (pipelineSteps env) :=
      filterMap_prefix_mono _ (runTrace_front env oracle)
    have hm := hsub.subset hp
    rw [exportTargets_pipeline, h] at hm
    simp only [Bool.false_eq_true, if_false, List.nil_append, List.mem_map] at hm
    obtain ⟨fn, _, rfl⟩ := hm
    exact strEndsWith_rtc_ls _

/-- Witness for C5 at a concrete run without the layover flag. -/
theorem no_sar_sim_without_flag_witness :
    layoverValue demoEnvNoLayover.layover = false ∧
      ("SAR-Simulation" ∉ stageCalls (runTrace demoEnvNoLayover zeroOracle) ∧
        ∀ p ∈ exportTargets (runTrace demoEnvNoLayover zeroOracle),
          strEndsWith p "LS.tif" = false) :=
  ⟨by decide, no_sar_sim_without_flag demoEnvNoLayover zeroOracle (by decide)⟩

theorem bandCode_toList (fn : String) :
    (bandCode fn).toList =
      (fn.toList.drop (fn.length - 6)).take (fn.length - 4 - (fn.length - 6)) := rfl

theorem bandCode_decomp (fn : String) (himg : strEndsWith fn ".img" = true)
    (hlen : 6 ≤ fn.length) :
    (bandCode fn).length = 2 ∧
      fn.toList = fn.toList.take (fn.length - 6) ++ (bandCode fn).toList ++ ".img".toList := by
  have hnl : fn.length = fn.toList.length := rfl
  obtain ⟨pre, hpre⟩ : ∃ pre, fn.toList = pre ++ ".img".toList := by
    rw [strEndsWith, List.isSuffixOf_iff_suffix] at himg
    obtain ⟨pre, hp⟩ := himg
    exact ⟨pre, hp.symm⟩
  have hplen : fn.toList.length = pre.length + 4 := by
    rw [hpre, List.length_append]
    rfl
  have h2 : fn.length - 4 - (fn.length - 6) = 2 := by omega
  have hbl : (bandCode fn).toList = (fn.toList.drop (fn.length - 6)).take 2 := by
    rw [bandCode_toList, h2]
  constructor
  · have hb1 : (bandCode fn).length = (bandCode fn).toList.length := rfl
    rw [hb1, hbl, List.length_take, List.length_drop]
    omega
  · rw [hbl]
    have htake : fn.toList.take (fn.length - 6) ++ (fn.toList.drop (fn.length - 6)).take 2 =
        fn.toList.take (fn.length - 4) := by
      rw [← List.take_add fn.toList (fn.length - 6) 2]
      congr 1
      omega
    rw [htake]
    have hpl4 : fn.length - 4 = pre.length := by omega
    rw [hpl4, hpre, List.take_left]

/-- **C6**: in every successful run the band exports write exactly one
output per `.img` file of each listed data directory, in order, at path
`/output/<granule>_<bandCode>_<suffix>` with suffix `LS.tif` for the
layover product and `RTC.tif` for the main product; and for any band
filename long enough to carry a band code, `bandCode` is exactly the two
characters right before the `".img"` extension. -/
theorem export_naming (env : Env) (oracle : Nat → Nat)
    (h : runOutcome env oracle = Outcome.success) :
    exportTargets (runTrace env oracle) =
      (if layoverValue env.layover then
        (env.lsListing.filter fun fn => strEndsWith fn ".img").map
          (fun fn => "/output/" ++ env.granule ++ "_" ++ bandCode fn ++ "_" ++ "LS.tif")
       else []) ++
        (env.rtcListing.filter fun fn => strEndsWith fn ".img").map
          (fun fn => "/output/" ++ env.granule ++ "_" ++ bandCode fn ++ "_" ++ "RTC.tif") ∧
      ∀ fn : String, strEndsWith fn ".img" = true → 6 ≤ fn.length →
        (bandCode fn).length = 2 ∧
          fn.toList = fn.toList.take (fn.length - 6) ++ (bandCode fn).toList ++ ".img".toList := by
  constructor
  · rw [run_success_trace env oracle h, exportTargets_pipeline]
  · intro fn himg hlen
    exact bandCode_decomp fn himg hlen

/-- Witness for C6 at a concrete successful run. -/
theorem export_naming_witness :
    runOutcome demoEnv zeroOracle = Outcome.success ∧
      (exportTargets (runTrace demoEnv zeroOracle) =
        (if layoverValue demoEnv.layover then
          (demoEnv.lsListing.filter fun fn => strEndsWith fn ".img").map
            (fun fn => "/output/" ++ demoEnv.granule ++ "_" ++ bandCode fn ++ "_" ++ "LS.tif")
         else []) ++
          (demoEnv.rtcListing.filter fun fn => strEndsWith fn ".img").map
            (fun fn => "/output/" ++ demoEnv.granule ++ "_" ++ bandCode fn ++ "_" ++ "RTC.tif") ∧
        ∀ fn : String, strEndsWith fn ".img" = true → 6 ≤ fn.length →
          (bandCode fn).length = 2 ∧
            fn.toList = fn.toList.take (fn.length - 6) ++ (bandCode fn).toList ++
              ".img".toList) :=
  ⟨by decide, export_naming demoEnv zeroOracle (by decide)⟩

theorem xmlWrite_not_mem_cleanup (f p pol y : String) :
    Step.xmlWrite p pol y ∉ cleanup f := by
  rw [cleanup]
  by_cases h : strEndsWith f ".dim" = true
  · rw [if_pos h]; simp
  · rw [if_neg h]; simp

theorem pySlice_length (s : String) (a b : Nat) (hb : b ≤ s.length) (hab : a ≤ b) :
    (pySlice s a b).length = b - a := by
  have h1 : (pySlice s a b).length = ((s.toList.drop a).take (b - a)).length := rfl
  have h2 : s.length = s.toList.length := rfl
  rw [h1, List.length_take, List.length_drop]
  omega

/-- **C9**: every sidecar written during any run carries an
acquisition-year value equal to `granule[17:21]` (four characters whenever
the scene identifier is long enough) and a polarization value equal to the
band code of some `.img` file of the main export's directory listing; its
path is the main `RTC.tif` product path plus `.xml`, so sidecars are
written only for the main product, never for the layover-mask product. -/
theorem sidecar_fields (env : Env) (oracle : Nat → Nat) (p pol y : String)
    (h : Step.xmlWrite p pol y ∈ runTrace env oracle) :
    y = pySlice env.granule 17 21 ∧
      (21 ≤ env.granule.length → y.length = 4) ∧
      ∃ fn ∈ env.rtcListing, strEndsWith fn ".img" = true ∧ pol = bandCode fn ∧
        p = ("/output/" ++ env.granule ++ "_" ++ bandCode fn ++ "_" ++ "RTC.tif") ++ ".xml" := by
  have hmem : Step.xmlWrite p pol y ∈ pipelineSteps env :=
    (runTrace_front env oracle).subset h
  rw [pipelineSteps_eq] at hmem
  simp only [List.mem_append, List.mem_cons, chainPrefixSteps] at hmem
  have main : Step.xmlWrite p pol y ∈ mainExportSteps env := by
    rcases hmem with (h1 | h1) | h1
    · exact absurd h1 (by simp)
    · rcases h1 with h2 | h2
      · exact absurd h2 (xmlWrite_not_mem_cleanup env.downloadName p pol y)
      · exact absurd h2 (by simp)
    · rcases h1 with h2 | h2 | h2 | h2 | h2
      · by_cases hl : layoverValue env.layover = true
        · rw [if_pos hl] at h2
          rw [branchSteps] at h2
          simp only [List.mem_cons] at h2
          rcases h2 with h3 | h3 | h3 | h3 | h3
          · exact absurd h3 (by simp [sarSimulationCall])
          · exact absurd h3 (by simp)
          · exact absurd h3 (by simp)
          · exact absurd h3 (by simp)
          · rcases List.mem_append.mp h3 with h4 | h4
            · obtain ⟨hcx, _⟩ := imgLoop_xmlWrite _ _ _ _ _ p pol y h4
              exact absurd hcx (by simp)
            · exact absurd h4 (xmlWrite_not_mem_cleanup "Terrain-Correction.dim" p pol y)
        · rw [if_neg hl] at h2
          exact absurd h2 (by simp)
      · exact absurd h2 (by simp [mainTerrainCorrectionCall])
      · exact absurd h2 (by simp)
      · exact absurd h2 (by simp)
      · exact h2
  rw [mainExportSteps, process_img_files, pyReplaceDim_tc] at main
  rcases List.mem_append.mp main with h4 | h4
  · obtain ⟨_, fn, hfn, himg, hpol, hp, hy⟩ := imgLoop_xmlWrite _ _ _ _ _ p pol y h4
    refine ⟨hy, ?_, fn, hfn, himg, hpol, by simpa using hp⟩
    intro hlen
    rw [hy, pySlice_length env.granule 17 21 hlen (by omega)]
  · exact absurd h4 (xmlWrite_not_mem_cleanup "Terrain-Correction.dim" p pol y)

/-- Witness for C9 at a concrete sidecar write of a successful run. -/
theorem sidecar_fields_witness :
    Step.xmlWrite
        ("/output/S1A_IW_GRDH_1SDV_20161205T044514_20161205T044539_014211_016F83_5CC7_VV_RTC.tif.xml")
        "VV" "2016" ∈ runTrace demoEnv zeroOracle ∧
      ("2016" = pySlice demoEnv.granule 17 21 ∧
        (21 ≤ demoEnv.granule.length → ("2016" : String).length = 4) ∧
        ∃ fn ∈ demoEnv.rtcListing, strEndsWith fn ".img" = true ∧ "VV" = bandCode fn ∧
          ("/output/S1A_IW_GRDH_1SDV_20161205T044514_20161205T044539_014211_016F83_5CC7_VV_RTC.tif.xml" : String) =
            ("/output/" ++ demoEnv.granule ++ "_" ++ bandCode fn ++ "_" ++ "RTC.tif") ++ ".xml") :=
  ⟨by decide, sidecar_fields demoEnv zeroOracle _ "VV" "2016" (by decide)⟩

/-- **C10**: the `--layover` flag is parsed with `type=bool`, so any
non-empty value — including the string `"False"` — enables the layover
branch; the branch is disabled only when the flag is omitted or given the
empty string.  The pipeline plans the `SAR-Simulation` stage exactly when
that truthiness holds. -/
theorem layover_flag_bool_parsing :
    (∀ s : String, ¬s = "" → layoverValue (some s) = true) ∧
      layoverValue (some "False") = true ∧
      layoverValue none = false ∧
      layoverValue (some "") = false ∧
      ∀ env : Env, "SAR-Simulation" ∈ stageCalls (pipelineSteps env) ↔
        layoverValue env.layover = true := by
  refine ⟨?_, by decide, by decide, by decide, ?_⟩
  · intro s hs
    simpa [layoverValue] using hs
  · intro env
    rw [stageCalls_pipeline]
    cases h : layoverValue env.layover
    · simp only [Bool.false_eq_true, if_false, List.append_nil, List.nil_append]
      constructor
      · intro hmem
        exact absurd hmem (by decide)
      · intro hmem
        exact absurd hmem (by decide)
    · simp only [if_true, List.mem_append]
      constructor
      · intro _
        trivial
      · intro _
        exact Or.inl (Or.inr (by decide))

/-- Witness for C10: the literal string `"False"` still enables the branch. -/
theorem layover_flag_bool_parsing_witness :
    ¬("False" : String) = "" ∧ layoverValue (some "False") = true :=
  ⟨by decide, layover_flag_bool_parsing.1 "False" (by decide)⟩

/-- The seventh external command of a layover-free run — the `gdaladdo`
overview build of the first band export — exits with status 5. -/
def addoFatalOracle : Nat → Nat := fun k => if k = 7 then 5 else 0

/-- **C7 counterexample**: in a run whose first band export fails at the
overview-building sub-step, the export's temporary file has been created
by the first `gdal_translate` but is never removed: the run aborts with
the failing command's status and no `unlink temp.tif` step is performed.
This refutes the claim that the temporary file is removed regardless of
whether the export's sub-steps succeed or fail. -/
theorem temp_file_left_on_failure :
    runOutcome demoEnvNoLayover addoFatalOracle = Outcome.fatal 5 ∧
      Step.call ["gdal_translate", "-of", "GTiff", "-a_nodata", "0",
        "Terrain-Correction.data/Gamma0_VV.img", "temp.tif"]
          ∈ runTrace demoEnvNoLayover addoFatalOracle ∧
      Step.unlink "temp.tif" ∉ runTrace demoEnvNoLayover addoFatalOracle := by
  refine ⟨by decide, by decide, by decide⟩

/-- **C7 (amended)**: whenever all three sub-steps of a band export
succeed, the temporary file is removed, as the very last step of the
export; when a sub-step fails the run aborts at once (see the
counterexample for the temporary file being left behind). -/
theorem temp_removed_on_success (input_file output_file : String) (oracle : Nat → Nat) (k : Nat)
    (h : (runSteps oracle (create_geotiff_from_img input_file output_file) k).2.2 =
      Outcome.success) :
    (runSteps oracle (create_geotiff_from_img input_file output_file) k).1.getLast? =
      some (Step.unlink "temp.tif") := by
  rw [runSteps_success _ _ _ h]
  rfl

/-- Witness for the amended C7 at a concrete successful export. -/
theorem temp_removed_on_success_witness :
    (runSteps zeroOracle (create_geotiff_from_img "TC.data/a_VV.img" "/output/a.tif") 0).2.2 =
        Outcome.success ∧
      (runSteps zeroOracle (create_geotiff_from_img "TC.data/a_VV.img" "/output/a.tif") 0).1.getLast? =
        some (Step.unlink "temp.tif") :=
  ⟨by decide, temp_removed_on_success "TC.data/a_VV.img" "/output/a.tif" zeroOracle 0 (by decide)⟩

/-- Python `needle in haystack` on strings: substring containment. -/
def containsSub (sub : List Char) : List Char → Bool
  | [] => sub.isEmpty
  | c :: rest => sub.isPrefixOf (c :: rest) || containsSub sub rest

/-- One element of the `links` array of a CMR catalog entry. -/
structure CmrLink where
  rel : String
  href : String

/-- One element of the `feed.entry` array of a CMR response. -/
structure CmrEntry where
  links : List CmrLink

/-- The claim-relevant part of the decoded JSON of a CMR response. -/
structure CmrData where
  entry : List CmrEntry

/-- The `for product in cmr_data["feed"]["entry"][0]["links"]` loop of
`get_download_url`: the first link whose `rel` contains `"data"` wins. -/
def linksLoop : List CmrLink → Option String
  | [] => none
  | product :: rest =>
    if containsSub "data".toList product.rel.toList then some product.href
    else linksLoop rest

/-- `get_download_url(granule)` after the catalog response has been
decoded: `None` when the entry list is empty, otherwise the first
`"data"`-relation link of the first entry (`None` when there is none). -/
def get_download_url (cmr_data : CmrData) : Option String :=
  match cmr_data.entry with
  | [] => none
  | e :: _ => linksLoop e.links

/-- URL resolution in the spec's words (§6): the first entry's first
`"data"`-relation link's href, not-found otherwise. -/
def resolveDownloadUrl (cmr_data : CmrData) : Option String :=
  cmr_data.entry.head?.bind fun e =>
    (e.links.find? fun l => containsSub "data".toList l.rel.toList).map CmrLink.href

theorem linksLoop_eq_find (links : List CmrLink) :
    linksLoop links =
      (links.find? fun l => containsSub "data".toList l.rel.toList).map CmrLink.href := by
  induction links with
  | nil => rfl
  | cons p rest ih =>
    simp only [linksLoop, List.find?_cons]
    cases h : containsSub "data".toList p.rel.toList
    · simp [ih]
    · simp

/-- **C8**: URL resolution returns the href of the first `"data"`-relation
link of the first catalog entry; it returns `none` when the entry list is
empty, and `none` when the first entry has no such link. -/
theorem url_resolution (d : CmrData) :
    get_download_url d = resolveDownloadUrl d ∧
      (d.entry = [] → get_download_url d = none) ∧
      ∀ e, d.entry.head? = some e →
        (∀ l ∈ e.links, containsSub "data".toList l.rel.toList = false) →
        get_download_url d = none := by
  refine ⟨?_, ?_, ?_⟩
  · cases hd : d.entry with
    | nil => simp [get_download_url, resolveDownloadUrl, hd]
    | cons e rest => simp [get_download_url, resolveDownloadUrl, hd, linksLoop_eq_find]
  · intro hd
    simp [get_download_url, hd]
  · intro e he hnone
    cases hd : d.entry with
    | nil => simp [get_download_url, hd]
    | cons e' rest =>
      rw [hd] at he
      simp only [List.head?_cons, Option.some.injEq] at he
      subst he
      simp [get_download_url, hd, linksLoop_eq_find]
      exact fun l hl => hnone l hl

/-- A concrete CMR response: first entry, second link carries the data
relation.  (Note the first link's rel must not contain the substring
`"data"` — the code's membership test `"data" in rel` would also match a
rel such as `.../metadata#`.) -/
def demoCmr : CmrData where
  entry :=
    [{ links :=
        [{ rel := "http://esipfed.org/ns/fedsearch/1.1/browse#", href := "browse.png" },
         { rel := "http://esipfed.org/ns/fedsearch/1.1/data#", href := "https://d.example/g.zip" }] }]

/-- Witness for C8 at a concrete catalog response. -/
theorem url_resolution_witness :
    get_download_url demoCmr = some "https://d.example/g.zip" ∧
      get_download_url demoCmr = resolveDownloadUrl demoCmr :=
  ⟨by decide, (url_resolution demoCmr).1⟩

theorem mem_cleanup (f : String) (x : Step) (h : x ∈ cleanup f) :
    x = Step.unlink f ∨ x = Step.rmtree (pyReplaceDim f) := by
  rw [cleanup] at h
  by_cases hd : strEndsWith f ".dim" = true
  · rw [if_pos hd] at h
    simpa using h
  · rw [if_neg hd] at h
    simp at h
    exact Or.inl h

theorem unlink_tf_not_mem_chain (env : Env)
    (hdn : strEndsWith env.downloadName ".dim" = false) :
    Step.unlink "Terrain-Flattening.dim" ∉ chainPrefixSteps env := by
  intro h
  rw [chainPrefixSteps] at h
  rcases List.mem_cons.mp h with h | h
  · exact absurd h (by simp)
  · rcases List.mem_append.mp h with h | h
    · rw [cleanup, if_neg (by simp [hdn])] at h
      simp only [List.mem_singleton, Step.unlink.injEq] at h
      rw [← h] at hdn
      exact absurd hdn (by decide)
    · exact absurd h (by decide)

theorem unlink_tf_not_mem_branch (env : Env) :
    Step.unlink "Terrain-Flattening.dim" ∉ branchSteps env := by
  intro h
  rw [branchSteps] at h
  simp only [List.mem_cons] at h
  rcases h with h | h | h | h | h
  · exact absurd h (by decide)
  · exact absurd h (by decide)
  · exact absurd h (by decide)
  · exact absurd h (by decide)
  · rw [process_img_files] at h
    rcases List.mem_append.mp h with h | h
    · exact absurd (imgLoop_unlink_eq _ _ _ _ _ _ h) (by decide)
    · rcases mem_cleanup _ _ h with h | h
      · exact absurd h (by decide)
      · exact absurd h (by decide)

theorem unlink_tf_not_mem_export (env : Env) :
    Step.unlink "Terrain-Flattening.dim" ∉ mainExportSteps env := by
  intro h
  rw [mainExportSteps, process_img_files] at h
  rcases List.mem_append.mp h with h | h
  · exact absurd (imgLoop_unlink_eq _ _ _ _ _ _ h) (by decide)
  · rcases mem_cleanup _ _ h with h | h
    · exact absurd h (by decide)
    · exact absurd h (by decide)

theorem rmtree_tfd_not_mem_chain (env : Env)
    (hdn : strEndsWith env.downloadName ".dim" = false) :
    Step.rmtree "Terrain-Flattening.data" ∉ chainPrefixSteps env := by
  intro h
  rw [chainPrefixSteps] at h
  rcases List.mem_cons.mp h with h | h
  · exact absurd h (by simp)
  · rcases List.mem_append.mp h with h | h
    · rw [cleanup, if_neg (by simp [hdn])] at h
      simp at h
    · exact absurd h (by decide)

theorem rmtree_tfd_not_mem_branch (env : Env) :
    Step.rmtree "Terrain-Flattening.data" ∉ branchSteps env := by
  intro h
  rw [branchSteps] at h
  simp only [List.mem_cons] at h
  rcases h with h | h | h | h | h
  · exact absurd h (by decide)
  · exact absurd h (by decide)
  · exact absurd h (by decide)
  · exact absurd h (by decide)
  · rw [process_img_files] at h
    rcases List.mem_append.mp h with h | h
    · exact imgLoop_no_rmtree _ _ _ _ _ _ h
    · rcases mem_cleanup _ _ h with h | h
      · exact absurd h (by decide)
      · exact absurd h (by decide)

theorem rmtree_tfd_not_mem_export (env : Env) :
    Step.rmtree "Terrain-Flattening.data" ∉ mainExportSteps env := by
  intro h
  rw [mainExportSteps, process_img_files] at h
  rcases List.mem_append.mp h with h | h
  · exact imgLoop_no_rmtree _ _ _ _ _ _ h
  · rcases mem_cleanup _ _ h with h | h
    · exact absurd h (by decide)
    · exact absurd h (by decide)

theorem unlink_tc_mem_branch (env : Env) :
    Step.unlink "Terrain-Correction.dim" ∈ branchSteps env := by
  have hc : Step.unlink "Terrain-Correction.dim" ∈ cleanup "Terrain-Correction.dim" := by
    rw [cleanup]
    exact List.mem_cons_self _ _
  rw [branchSteps, process_img_files]
  exact List.mem_cons_of_mem _ (List.mem_cons_of_mem _ (List.mem_cons_of_mem _
    (List.mem_cons_of_mem _ (List.mem_append_right _ hc))))

theorem getElem_pin (L1 tail : List Step) (x : Step) (k : Nat)
    (hx : x ∉ L1) (huniq : ∀ m : Nat, tail[m]? = some x → m = k)
    (i : Nat) (hi : (L1 ++ tail)[i]? = some x) : i = L1.length + k := by
  rcases Nat.lt_or_ge i L1.length with hlt | hge
  · exfalso
    apply hx
    exact List.getElem?_mem (by rwa [List.getElem?_append_left hlt] at hi)
  · have hm := huniq (i - L1.length) (by rwa [List.getElem?_append_right hge] at hi)
    omega

/-- **C2**: in every run — the flag set or not, commands failing or not —
any deletion of the Terrain-Flattening artifact, of its primary `.dim`
file as well as of its `.data` directory, happens only right after the
main-path Terrain-Correction command: the `.dim` unlink is the step
immediately after that command and the `.data` removal the step
immediately after the unlink; and when the layover branch is requested,
the `SAR-Simulation` command and the branch's own artifact cleanup have
already happened strictly earlier, so the branch runs entirely before
the Terrain-Flattening artifact is deleted.  (The downloaded granule is
assumed not to be named like a `.dim` descriptor, otherwise the first
stage's input cleanup could itself remove files of the artifact's name.) -/
theorem tf_deleted_only_after_main_tc (env : Env) (oracle : Nat → Nat)
    (hdn : strEndsWith env.downloadName ".dim" = false) :
    (∀ i : Nat, (runTrace env oracle)[i]? = some (Step.unlink "Terrain-Flattening.dim") →
      (0 < i ∧ (runTrace env oracle)[i - 1]? = some mainTerrainCorrectionCall) ∧
      (layoverValue env.layover = true →
        (∃ j, j < i ∧ (runTrace env oracle)[j]? = some sarSimulationCall) ∧
        (∃ j, j < i ∧
          (runTrace env oracle)[j]? = some (Step.unlink "Terrain-Correction.dim")))) ∧
    (∀ i : Nat, (runTrace env oracle)[i]? = some (Step.rmtree "Terrain-Flattening.data") →
      (1 < i ∧ (runTrace env oracle)[i - 2]? = some mainTerrainCorrectionCall ∧
        (runTrace env oracle)[i - 1]? = some (Step.unlink "Terrain-Flattening.dim")) ∧
      (layoverValue env.layover = true →
        (∃ j, j < i ∧ (runTrace env oracle)[j]? = some sarSimulationCall) ∧
        (∃ j, j < i ∧
          (runTrace env oracle)[j]? = some (Step.unlink "Terrain-Correction.dim")))) := by
  obtain ⟨tl, htl⟩ := runTrace_front env oracle
  have htr : ∀ j : Nat, j < (runTrace env oracle).length →
      (runTrace env oracle)[j]? = (pipelineSteps env)[j]? := by
    intro j hj
    rw [← htl, List.getElem?_append_left hj]
  have hdecomp : pipelineSteps env =
      (chainPrefixSteps env ++ (if layoverValue env.layover then branchSteps env else [])) ++
        (mainTerrainCorrectionCall :: Step.unlink "Terrain-Flattening.dim" ::
          Step.rmtree "Terrain-Flattening.data" :: mainExportSteps env) := by
    rw [pipelineSteps_eq, List.append_assoc]
  have hnotU : Step.unlink "Terrain-Flattening.dim" ∉
      chainPrefixSteps env ++ (if layoverValue env.layover then branchSteps env else []) := by
    intro hmem
    rcases List.mem_append.mp hmem with h | h
    · exact unlink_tf_not_mem_chain env hdn h
    · by_cases hl : layoverValue env.layover = true
      · rw [if_pos hl] at h
        exact unlink_tf_not_mem_branch env h
      · rw [if_neg hl] at h
        simp at h
  have hnotR : Step.rmtree "Terrain-Flattening.data" ∉
      chainPrefixSteps env ++ (if layoverValue env.layover then branchSteps env else []) := by
    intro hmem
    rcases List.mem_append.mp hmem with h | h
    · exact rmtree_tfd_not_mem_chain env hdn h
    · by_cases hl : layoverValue env.layover = true
      · rw [if_pos hl] at h
        exact rmtree_tfd_not_mem_branch env h
      · rw [if_neg hl] at h
        simp at h
  have huniqU : ∀ m : Nat,
      (mainTerrainCorrectionCall :: Step.unlink "Terrain-Flattening.dim" ::
        Step.rmtree "Terrain-Flattening.data" :: mainExportSteps env)[m]? =
        some (Step.unlink "Terrain-Flattening.dim") → m = 1 := by
    intro m
    match m with
    | 0 =>
      intro hm
      exact absurd hm (by simp [mainTerrainCorrectionCall])
    | 1 =>
      intro _
      rfl
    | 2 =>
      intro hm
      exact absurd hm (by simp)
    | (m' + 3) =>
      intro hm
      exact absurd (List.getElem?_mem (by simpa using hm)) (unlink_tf_not_mem_export env)
  have huniqR : ∀ m : Nat,
      (mainTerrainCorrectionCall :: Step.unlink "Terrain-Flattening.dim" ::
        Step.rmtree "Terrain-Flattening.data" :: mainExportSteps env)[m]? =
        some (Step.rmtree "Terrain-Flattening.data") → m = 2 := by
    intro m
    match m with
    | 0 =>
      intro hm
      exact absurd hm (by simp [mainTerrainCorrectionCall])
    | 1 =>
      intro hm
      exact absurd hm (by simp)
    | 2 =>
      intro _
      rfl
    | (m' + 3) =>
      intro hm
      exact absurd (List.getElem?_mem (by simpa using hm)) (rmtree_tfd_not_mem_export env)
  have hbranch : layoverValue env.layover = true →
      ∀ i : Nat, (chainPrefixSteps env ++
          (if layoverValue env.layover then branchSteps env else [])).length < i →
        i < (runTrace env oracle).length →
        (∃ j, j < i ∧ (runTrace env oracle)[j]? = some sarSimulationCall) ∧
        (∃ j, j < i ∧ (runTrace env oracle)[j]? =
          some (Step.unlink "Terrain-Correction.dim")) := by
    intro hl i hgt hlen
    rw [List.length_append, if_pos hl] at hgt
    have hblen : 0 < (branchSteps env).length := by
      rw [branchSteps]
      simp
    constructor
    · refine ⟨(chainPrefixSteps env).length, by omega, ?_⟩
      rw [htr _ (by omega)]
      rw [pipelineSteps_eq, List.getElem?_append_right (Nat.le_refl _), if_pos hl]
      simp [branchSteps]
    · have hjbex : ∃ jb : Nat,
          (branchSteps env)[jb]? = some (Step.unlink "Terrain-Correction.dim") := by
        obtain ⟨k, hk, he⟩ := List.mem_iff_getElem.mp (unlink_tc_mem_branch env)
        exact ⟨k, by rw [List.getElem?_eq_getElem hk, he]⟩
      obtain ⟨jb, hjb⟩ := hjbex
      have hjblen : jb < (branchSteps env).length := (List.getElem?_eq_some.mp hjb).1
      refine ⟨(chainPrefixSteps env).length + jb, by omega, ?_⟩
      rw [htr _ (by omega)]
      rw [pipelineSteps_eq, List.getElem?_append_right
        (by omega : (chainPrefixSteps env).length ≤ (chainPrefixSteps env).length + jb),
        if_pos hl]
      have hidx : (chainPrefixSteps env).length + jb - (chainPrefixSteps env).length = jb := by
        omega
      rw [hidx, List.getElem?_append_left hjblen]
      exact hjb
  constructor
  · intro i hi
    have hilen : i < (runTrace env oracle).length := (List.getElem?_eq_some.mp hi).1
    have hsteps_i : (pipelineSteps env)[i]? =
        some (Step.unlink "Terrain-Flattening.dim") := by
      rw [← htr i hilen]
      exact hi
    rw [hdecomp] at hsteps_i
    have hieq := getElem_pin _ _ _ 1 hnotU huniqU i hsteps_i
    refine ⟨⟨by omega, ?_⟩, fun hl => hbranch hl i (by omega) hilen⟩
    rw [htr (i - 1) (by omega), hdecomp, hieq]
    have h1 : (chainPrefixSteps env ++
        (if layoverValue env.layover then branchSteps env else [])).length + 1 - 1 =
        (chainPrefixSteps env ++
          (if layoverValue env.layover then branchSteps env else [])).length := by
      omega
    rw [h1, List.getElem?_append_right (Nat.le_refl _)]
    simp
  · intro i hi
    have hilen : i < (runTrace env oracle).length := (List.getElem?_eq_some.mp hi).1
    have hsteps_i : (pipelineSteps env)[i]? =
        some (Step.rmtree "Terrain-Flattening.data") := by
      rw [← htr i hilen]
      exact hi
    rw [hdecomp] at hsteps_i
    have hieq := getElem_pin _ _ _ 2 hnotR huniqR i hsteps_i
    refine ⟨⟨by omega, ?_, ?_⟩, fun hl => hbranch hl i (by omega) hilen⟩
    · rw [htr (i - 2) (by omega), hdecomp]
      have h1 : i - 2 = (chainPrefixSteps env ++
          (if layoverValue env.layover then branchSteps env else [])).length := by
        omega
      rw [h1, List.getElem?_append_right (Nat.le_refl _)]
      simp
    · rw [htr (i - 1) (by omega), hdecomp]
      have h1 : i - 1 = (chainPrefixSteps env ++
          (if layoverValue env.layover then branchSteps env else [])).length + 1 := by
        omega
      rw [h1, List.getElem?_append_right (by omega : (chainPrefixSteps env ++
        (if layoverValue env.layover then branchSteps env else [])).length ≤
          (chainPrefixSteps env ++
            (if layoverValue env.layover then branchSteps env else [])).length + 1)]
      have h2 : (chainPrefixSteps env ++
          (if layoverValue env.layover then branchSteps env else [])).length + 1 -
          (chainPrefixSteps env ++
            (if layoverValue env.layover then branchSteps env else [])).length = 1 := by
        omega
      rw [h2]
      rfl

/-- Witness for C2 at a concrete run with the layover branch enabled: in
that run the Terrain-Flattening unlink is trace step 25 and the data
directory removal is trace step 26. -/
theorem tf_deleted_only_after_main_tc_witness :
    strEndsWith demoEnv.downloadName ".dim" = false ∧
      (runTrace demoEnv zeroOracle)[25]? = some (Step.unlink "Terrain-Flattening.dim") ∧
      (runTrace demoEnv zeroOracle)[26]? = some (Step.rmtree "Terrain-Flattening.data") ∧
      ((∀ i : Nat,
          (runTrace demoEnv zeroOracle)[i]? = some (Step.unlink "Terrain-Flattening.dim") →
        (0 < i ∧ (runTrace demoEnv zeroOracle)[i - 1]? = some mainTerrainCorrectionCall) ∧
        (layoverValue demoEnv.layover = true →
          (∃ j, j < i ∧ (runTrace demoEnv zeroOracle)[j]? = some sarSimulationCall) ∧
          (∃ j, j < i ∧
            (runTrace demoEnv zeroOracle)[j]? = some (Step.unlink "Terrain-Correction.dim")))) ∧
      (∀ i : Nat,
          (runTrace demoEnv zeroOracle)[i]? = some (Step.rmtree "Terrain-Flattening.data") →
        (1 < i ∧ (runTrace demoEnv zeroOracle)[i - 2]? = some mainTerrainCorrectionCall ∧
          (runTrace demoEnv zeroOracle)[i - 1]? =
            some (Step.unlink "Terrain-Flattening.dim")) ∧
        (layoverValue demoEnv.layover = true →
          (∃ j, j < i ∧ (runTrace demoEnv zeroOracle)[j]? = some sarSimulationCall) ∧
          (∃ j, j < i ∧
            (runTrace demoEnv zeroOracle)[j]? =
              some (Step.unlink "Terrain-Correction.dim"))))) :=
  ⟨by decide, by decide, by decide,
    tf_deleted_only_after_main_tc demoEnv zeroOracle (by decide)⟩

/-- The files created on disk by one external command, at the interface
granularity the spec gives for the external collaborators: a
`gpt <stage> …` invocation writes `<stage>.dim` and `<stage>.data`; a
`gdal_translate … <out>` writes its final argument; `gdaladdo` updates its
input in place and creates nothing. -/
def createdByCall (c : List String) : List String :=
  if c.head? = some "gpt" then
    match (c.drop 1).head? with
    | some name => [name ++ ".dim", name ++ ".data"]
    | none => []
  else if c.head? = some "gdal_translate" then
    match c.getLast? with
    | some out => [out]
    | none => []
  else []

/-- Effect of one step on the list of files present on disk. -/
def applyStep (fs : List String) : Step → List String
  | Step.call c => fs ++ createdByCall c
  | Step.unlink f => fs.filter fun g => g != f
  | Step.rmtree d => fs.filter fun g => g != d
  | Step.xmlWrite p _ _ => fs ++ [p]

/-- The files on disk after performing a step list, starting from `fs`. -/
def filesAfter : List Step → List String → List String
  | [], fs => fs
  | s :: rest, fs => filesAfter rest (applyStep fs s)

/-- A path inside the final output directory. -/
def inOutput (f : String) : Prop :=
  "/output/".toList <+: f.toList

instance (f : String) : Decidable (inOutput f) := by
  unfold inOutput
  infer_instance

theorem inOutput_append (s : String) : inOutput ("/output/" ++ s) := by
  unfold inOutput
  rw [show ("/output/" ++ s).toList = "/output/".toList ++ s.toList from String.data_append _ _]
  exact List.prefix_append _ _

theorem inOutput_append_of (a s : String) (h : inOutput a) : inOutput (a ++ s) := by
  unfold inOutput at h ⊢
  rw [show (a ++ s).toList = a.toList ++ s.toList from String.data_append _ _]
  exact h.trans (List.prefix_append _ _)

theorem filesAfter_append (a b : List Step) (fs : List String) :
    filesAfter (a ++ b) fs = filesAfter b (filesAfter a fs) := by
  induction a generalizing fs with
  | nil => rfl
  | cons s rest ih => exact ih (applyStep fs s)

theorem filesAfter_cons (s : Step) (rest : List Step) (fs : List String) :
    filesAfter (s :: rest) fs = filesAfter rest (applyStep fs s) := rfl

theorem applyStep_mono (fs fs' : List String) (s : Step) (h : fs ⊆ fs') :
    applyStep fs s ⊆ applyStep fs' s := by
  cases s with
  | call c =>
    intro g hg
    rw [applyStep, List.mem_append] at hg ⊢
    rcases hg with hg | hg
    · exact Or.inl (h hg)
    · exact Or.inr hg
  | unlink f =>
    intro g hg
    rw [applyStep, List.mem_filter] at hg ⊢
    exact ⟨h hg.1, hg.2⟩
  | rmtree d =>
    intro g hg
    rw [applyStep, List.mem_filter] at hg ⊢
    exact ⟨h hg.1, hg.2⟩
  | xmlWrite p pol y =>
    intro g hg
    rw [applyStep, List.mem_append] at hg ⊢
    rcases hg with hg | hg
    · exact Or.inl (h hg)
    · exact Or.inr hg

theorem filesAfter_mono (l : List Step) (fs fs' : List String) (h : fs ⊆ fs') :
    filesAfter l fs ⊆ filesAfter l fs' := by
  induction l generalizing fs fs' with
  | nil => exact h
  | cons s rest ih => exact ih _ _ (applyStep_mono fs fs' s h)

theorem mem_filesAfter_cleanup (x : String) (fs : List String) (f : String)
    (h : f ∈ filesAfter (cleanup x) fs) :
    f ∈ fs ∧ ¬f = x ∧ (strEndsWith x ".dim" = true → ¬f = pyReplaceDim x) := by
  rw [cleanup] at h
  by_cases hd : strEndsWith x ".dim" = true
  · rw [if_pos hd] at h
    simp only [filesAfter, applyStep, List.mem_filter, bne_iff_ne] at h
    exact ⟨h.1.1, h.1.2, fun _ => h.2⟩
  · rw [if_neg hd] at h
    simp only [filesAfter, applyStep, List.mem_filter, bne_iff_ne] at h
    exact ⟨h.1, h.2, fun hc => absurd hc hd⟩

theorem createdByCall_t1 (a b : String) :
    createdByCall ["gdal_translate", "-of", "GTiff", "-a_nodata", "0", a, b] = [b] := rfl

theorem createdByCall_addo :
    createdByCall ["gdaladdo", "-r", "average", "temp.tif", "2", "4", "8", "16"] = [] := rfl

theorem createdByCall_t3 (out : String) :
    createdByCall ["gdal_translate", "-co", "TILED=YES", "-co", "COMPRESS=DEFLATE", "-co",
      "COPY_SRC_OVERVIEWS=YES", "temp.tif", out] = [out] := rfl

theorem mem_filesAfter_create (in1 out : String) (fs : List String) (f : String)
    (hout : inOutput out)
    (h : f ∈ filesAfter (create_geotiff_from_img in1 out) fs) :
    f ∈ fs ∨ inOutput f := by
  rw [create_geotiff_from_img] at h
  rw [filesAfter_append, filesAfter_append, filesAfter_append] at h
  simp only [system_call, filesAfter, applyStep, createdByCall_t1, createdByCall_addo,
    createdByCall_t3, cleanup_temp] at h
  simp only [List.mem_filter, List.mem_append, List.append_nil, List.mem_singleton,
    bne_iff_ne] at h
  rcases h.1 with (h4 | h4) | h4
  · exact Or.inl h4
  · exact absurd h4 h.2
  · exact Or.inr (h4 ▸ hout)

theorem mem_filesAfter_imgLoop (g dd ext : String) (cx : Bool) (listing : List String)
    (fs : List String) (f : String)
    (h : f ∈ filesAfter (imgLoop g dd ext cx listing) fs) :
    f ∈ fs ∨ inOutput f := by
  induction listing generalizing fs with
  | nil => exact Or.inl h
  | cons fn rest ih =>
    simp only [imgLoop] at h
    by_cases hi : strEndsWith fn ".img" = true
    · rw [if_pos hi, filesAfter_append] at h
      rcases ih _ h with h2 | h2
      · rw [filesAfter_append] at h2
        have hxml : ∀ (f' : String) (fsx : List String),
            f' ∈ filesAfter (if cx = true then
              create_arcgis_xml g
                (("/output/" ++ g ++ "_" ++ bandCode fn ++ "_" ++ ext) ++ ".xml")
                (bandCode fn)
             else []) fsx → f' ∈ fsx ∨ inOutput f' := by
          intro f' fsx hf'
          by_cases hcx : cx = true
          · rw [if_pos hcx, create_arcgis_xml] at hf'
            simp only [filesAfter, applyStep] at hf'
            rcases List.mem_append.mp hf' with h4 | h4
            · exact Or.inl h4
            · rw [List.mem_singleton] at h4
              exact Or.inr (h4 ▸ inOutput_append_of _ _ (inOutput_append _))
          · rw [if_neg hcx] at hf'
            exact Or.inl hf'
        rcases hxml f _ h2 with h3 | h3
        · rcases mem_filesAfter_create _ _ _ _ (inOutput_append _) h3 with h4 | h4
          · exact Or.inl h4
          · exact Or.inr h4
        · exact Or.inr h3
      · exact Or.inr h2
    · rw [if_neg hi, List.nil_append] at h
      exact ih _ h

theorem unlink_temp_mem_imgLoop (g dd ext : String) (cx : Bool) (listing : List String)
    (fn : String) (hfn : fn ∈ listing) (himg : strEndsWith fn ".img" = true) :
    Step.unlink "temp.tif" ∈ imgLoop g dd ext cx listing := by
  induction listing with
  | nil => cases hfn
  | cons a rest ih =>
    simp only [imgLoop]
    rcases List.mem_cons.mp hfn with rfl | hfn'
    · rw [if_pos himg]
      apply List.mem_append_left
      apply List.mem_append_left
      simp [create_geotiff_from_img, system_call, cleanup_temp]
    · exact List.mem_append_right _ (ih hfn')

theorem chain_tail_files :
    filesAfter
      [Step.call ["gpt", "Calibration", "-Ssource=Apply-Orbit-File.dim", "-t", "Calibration",
         "-PoutputBetaBand=true", "-PoutputSigmaBand=false"],
       Step.unlink "Apply-Orbit-File.dim", Step.rmtree "Apply-Orbit-File.data",
       Step.call ["gpt", "Speckle-Filter", "-Ssource=Calibration.dim", "-t", "Speckle-Filter"],
       Step.unlink "Calibration.dim", Step.rmtree "Calibration.data",
       Step.call ["gpt", "Multilook", "-Ssource=Speckle-Filter.dim", "-t", "Multilook",
         "-PnRgLooks=3", "-PnAzLooks=3"],
       Step.unlink "Speckle-Filter.dim", Step.rmtree "Speckle-Filter.data",
       Step.call ["gpt", "Terrain-Flattening", "-Ssource=Multilook.dim", "-t",
         "Terrain-Flattening", "-PreGridMethod=False"],
       Step.unlink "Multilook.dim", Step.rmtree "Multilook.data"]
      ["Apply-Orbit-File.dim", "Apply-Orbit-File.data"] =
      ["Terrain-Flattening.dim", "Terrain-Flattening.data"] := by decide

theorem chain_files (env : Env) :
    ∀ f ∈ filesAfter (chainPrefixSteps env) [env.downloadName],
      f = "Terrain-Flattening.dim" ∨ f = "Terrain-Flattening.data" := by
  intro f hf
  rw [chainPrefixSteps] at hf
  rw [filesAfter_cons] at hf
  rw [show applyStep [env.downloadName] (Step.call ["gpt", "Apply-Orbit-File",
      "-Ssource=" ++ env.downloadName, "-t", "Apply-Orbit-File"]) =
      [env.downloadName, "Apply-Orbit-File.dim", "Apply-Orbit-File.data"] from rfl] at hf
  rw [filesAfter_append] at hf
  have hsub : filesAfter (cleanup env.downloadName)
      [env.downloadName, "Apply-Orbit-File.dim", "Apply-Orbit-File.data"] ⊆
      ["Apply-Orbit-File.dim", "Apply-Orbit-File.data"] := by
    intro g hg
    obtain ⟨hg1, hg2, _⟩ := mem_filesAfter_cleanup _ _ _ hg
    simp only [List.mem_cons, List.not_mem_nil, or_false] at hg1
    rcases hg1 with h1 | h1 | h1
    · exact absurd h1 hg2
    · simp [h1]
    · simp [h1]
  have hf2 := filesAfter_mono _ _ _ hsub hf
  rw [chain_tail_files] at hf2
  simpa using hf2

theorem branch_entry_files :
    applyStep (applyStep (applyStep (applyStep
      ["Terrain-Flattening.dim", "Terrain-Flattening.data"] sarSimulationCall)
      (Step.call ["gpt", "Terrain-Correction", "-Ssource=SAR-Simulation.dim", "-t",
        "Terrain-Correction", "-PimgResamplingMethod=NEAREST_NEIGHBOUR",
        "-PpixelSpacingInMeter=30.0", "-PsourceBands=layover_shadow_mask",
        "-PdemName=SRTM 1Sec HGT"]))
      (Step.unlink "SAR-Simulation.dim")) (Step.rmtree "SAR-Simulation.data") =
      ["Terrain-Flattening.dim", "Terrain-Flattening.data",
       "Terrain-Correction.dim", "Terrain-Correction.data"] := by decide

theorem branch_files (env : Env) (f : String)
    (h : f ∈ filesAfter (branchSteps env)
      ["Terrain-Flattening.dim", "Terrain-Flattening.data"]) :
    f = "Terrain-Flattening.dim" ∨ f = "Terrain-Flattening.data" ∨ inOutput f := by
  rw [branchSteps] at h
  rw [filesAfter_cons, filesAfter_cons, filesAfter_cons, filesAfter_cons] at h
  rw [branch_entry_files] at h
  rw [process_img_files, filesAfter_append] at h
  obtain ⟨hm, hne1, hne2⟩ := mem_filesAfter_cleanup _ _ _ h
  rcases mem_filesAfter_imgLoop _ _ _ _ _ _ _ hm with h2 | h2
  · simp only [List.mem_cons, List.not_mem_nil, or_false] at h2
    rcases h2 with h3 | h3 | h3 | h3
    · exact Or.inl h3
    · exact Or.inr (Or.inl h3)
    · exact absurd h3 hne1
    · exfalso
      apply hne2 (by decide)
      rw [pyReplaceDim_tc]
      exact h3
  · exact Or.inr (Or.inr h2)

theorem createdByCall_mainTC :
    createdByCall ["gpt", "Terrain-Correction", "-Ssource=Terrain-Flattening.dim", "-t",
      "Terrain-Correction", "-PpixelSpacingInMeter=30.0", "-PdemName=SRTM 1Sec HGT"] =
      ["Terrain-Correction.dim", "Terrain-Correction.data"] := rfl

/-- **C4**: after every successful run no intermediate artifact remains on
disk: starting the disk model from just the downloaded scene file, every
file still present at the end of the trace lies under `/output/`; and the
trace contains the deletion of the downloaded file, of every stage
artifact's `.dim` file and `.data` directory (including `SAR-Simulation`
when the layover branch runs — the two `Terrain-Correction` artifacts
share one name, deleted once per export), and of the temporary export file
whenever some band was exported. -/
theorem no_intermediate_artifacts (env : Env) (oracle : Nat → Nat)
    (h : runOutcome env oracle = Outcome.success) :
    (∀ f ∈ filesAfter (runTrace env oracle) [env.downloadName], inOutput f) ∧
      Step.unlink env.downloadName ∈ runTrace env oracle ∧
      (∀ stage ∈ (["Apply-Orbit-File", "Calibration", "Speckle-Filter", "Multilook",
          "Terrain-Flattening", "Terrain-Correction"] : List String),
        Step.unlink (stage ++ ".dim") ∈ runTrace env oracle ∧
          Step.rmtree (stage ++ ".data") ∈ runTrace env oracle) ∧
      (layoverValue env.layover = true →
        Step.unlink "SAR-Simulation.dim" ∈ runTrace env oracle ∧
          Step.rmtree "SAR-Simulation.data" ∈ runTrace env oracle) ∧
      ((∃ fn ∈ env.rtcListing, strEndsWith fn ".img" = true) →
        Step.unlink "temp.tif" ∈ runTrace env oracle) := by
  rw [run_success_trace env oracle h, pipelineSteps_eq]
  refine ⟨?_, ?_, ?_, ?_, ?_⟩
  · intro f hf
    rw [filesAfter_append, filesAfter_append] at hf
    have hS2 : ∀ f' ∈ filesAfter (if layoverValue env.layover = true then branchSteps env
        else []) (filesAfter (chainPrefixSteps env) [env.downloadName]),
        f' = "Terrain-Flattening.dim" ∨ f' = "Terrain-Flattening.data" ∨ inOutput f' := by
      intro f' hf'
      by_cases hl : layoverValue env.layover = true
      · rw [if_pos hl] at hf'
        have hsub : filesAfter (chainPrefixSteps env) [env.downloadName] ⊆
            ["Terrain-Flattening.dim", "Terrain-Flattening.data"] := by
          intro g hg
          rcases chain_files env g hg with h1 | h1
          · rw [h1]; exact List.mem_cons_self _ _
          · rw [h1]; simp
        exact branch_files env f' (filesAfter_mono _ _ _ hsub hf')
      · rw [if_neg hl] at hf'
        rcases chain_files env f' hf' with h1 | h1
        · exact Or.inl h1
        · exact Or.inr (Or.inl h1)
    rw [filesAfter_cons, filesAfter_cons, filesAfter_cons] at hf
    rw [mainExportSteps, process_img_files, filesAfter_append] at hf
    obtain ⟨hm, hne1, hne2⟩ := mem_filesAfter_cleanup _ _ _ hf
    rcases mem_filesAfter_imgLoop _ _ _ _ _ _ _ hm with h2 | h2
    · simp only [applyStep, mainTerrainCorrectionCall, createdByCall_mainTC,
        List.mem_filter, List.mem_append, bne_iff_ne] at h2
      obtain ⟨⟨hmm, hTF⟩, hTFd⟩ := h2
      rcases hmm with h3 | h3
      · rcases hS2 f h3 with h4 | h4 | h4
        · exact absurd h4 hTF
        · exact absurd h4 hTFd
        · exact h4
      · simp only [List.mem_cons, List.not_mem_nil, or_false] at h3
        rcases h3 with h4 | h4
        · exact absurd h4 hne1
        · exfalso
          apply hne2 (by decide)
          rw [pyReplaceDim_tc]
          exact h4
    · exact h2
  · apply List.mem_append_left
    rw [chainPrefixSteps]
    refine List.mem_cons_of_mem _ (List.mem_append_left _ ?_)
    rw [cleanup]
    exact List.mem_cons_self _ _
  · intro stage hstage
    have hTC : Step.unlink "Terrain-Correction.dim" ∈ mainExportSteps env ∧
        Step.rmtree "Terrain-Correction.data" ∈ mainExportSteps env := by
      rw [mainExportSteps, process_img_files]
      rw [show cleanup "Terrain-Correction.dim" = [Step.unlink "Terrain-Correction.dim",
        Step.rmtree "Terrain-Correction.data"] from by decide]
      constructor
      · exact List.mem_append_right _ (by simp)
      · exact List.mem_append_right _ (by simp)
    simp only [List.mem_cons, List.not_mem_nil, or_false] at hstage
    rcases hstage with rfl | rfl | rfl | rfl | rfl | rfl
    · constructor <;>
        · apply List.mem_append_left
          rw [chainPrefixSteps]
          simp
    · constructor <;>
        · apply List.mem_append_left
          rw [chainPrefixSteps]
          simp
    · constructor <;>
        · apply List.mem_append_left
          rw [chainPrefixSteps]
          simp
    · constructor <;>
        · apply List.mem_append_left
          rw [chainPrefixSteps]
          simp
    · constructor <;>
        · apply List.mem_append_right
          apply List.mem_append_right
          simp
    · constructor
      · apply List.mem_append_right
        apply List.mem_append_right
        refine List.mem_cons_of_mem _ (List.mem_cons_of_mem _ (List.mem_cons_of_mem _ ?_))
        simpa using hTC.1
      · apply List.mem_append_right
        apply List.mem_append_right
        refine List.mem_cons_of_mem _ (List.mem_cons_of_mem _ (List.mem_cons_of_mem _ ?_))
        simpa using hTC.2
  · intro hl
    rw [if_pos hl]
    constructor
    · apply List.mem_append_right
      apply List.mem_append_left
      rw [branchSteps]
      simp
    · apply List.mem_append_right
      apply List.mem_append_left
      rw [branchSteps]
      simp
  · rintro ⟨fn, hfn, himg⟩
    apply List.mem_append_right
    apply List.mem_append_right
    refine List.mem_cons_of_mem _ (List.mem_cons_of_mem _ (List.mem_cons_of_mem _ ?_))
    rw [mainExportSteps, process_img_files]
    exact List.mem_append_left _
      (unlink_temp_mem_imgLoop env.granule _ "RTC.tif" true env.rtcListing fn hfn himg)

/-- Witness for C4 at a concrete successful run with the layover branch. -/
theorem no_intermediate_artifacts_witness :
    runOutcome demoEnv zeroOracle = Outcome.success ∧
      ((∀ f ∈ filesAfter (runTrace demoEnv zeroOracle) [demoEnv.downloadName], inOutput f) ∧
        Step.unlink demoEnv.downloadName ∈ runTrace demoEnv zeroOracle ∧
        (∀ stage ∈ (["Apply-Orbit-File", "Calibration", "Speckle-Filter", "Multilook",
            "Terrain-Flattening", "Terrain-Correction"] : List String),
          Step.unlink (stage ++ ".dim") ∈ runTrace demoEnv zeroOracle ∧
            Step.rmtree (stage ++ ".data") ∈ runTrace demoEnv zeroOracle) ∧
        (layoverValue demoEnv.layover = true →
          Step.unlink "SAR-Simulation.dim" ∈ runTrace demoEnv zeroOracle ∧
            Step.rmtree "SAR-Simulation.data" ∈ runTrace demoEnv zeroOracle) ∧
        ((∃ fn ∈ demoEnv.rtcListing, strEndsWith fn ".img" = true) →
          Step.unlink "temp.tif" ∈ runTrace demoEnv zeroOracle)) :=
  ⟨by decide, no_intermediate_artifacts demoEnv zeroOracle (by decide)⟩
